import Mathlib

/-!
Shallow embedding of the request-processing core of the Skipper HTTP
reverse proxy (src/proxy/proxy.go), together with theorems settling the
frozen claims about it.  Pure helpers (header handling, the access-log
decision, the error-to-status mapping, the retry predicate) are translated
directly; the stateful pipeline engine `do` is embedded as a function over
an explicit request-context state, with the results of its effectful
collaborators (route lookup, circuit breaker, backend round trips, the
recursive loopback call) supplied as oracle inputs, and the engine's
observable actions (backend attempts, breaker `done` reports, body drains,
LIFO cleanup invocations) recorded in an event trace.
-/

namespace Skipper

/-- HTTP headers, modelled as an association list from field name to the
list of values (Go: `http.Header = map[string][]string`; a Go map has
unique keys and no inherent order, the list order here stands in for an
arbitrary iteration order). -/
abbrev Header := List (String × List String)

/-- Character validity from Go net/textproto `validHeaderFieldByte`:
letters, digits and the RFC 7230 token specials (the last two checks are
for the apostrophe and backtick characters). -/
def validHeaderFieldChar (c : Char) : Bool :=
  (c ≥ 'a' && c ≤ 'z') || (c ≥ 'A' && c ≤ 'Z') || (c ≥ '0' && c ≤ '9') ||
  ("!#$%&*+-.^_|~".toList.contains c) || c == Char.ofNat 39 || c == Char.ofNat 96

/-- Case normalisation loop of Go net/textproto `canonicalMIMEHeaderKey`:
upper-case a letter at the start or right after a hyphen, lower-case it
otherwise. -/
def canonicalChars : Bool → List Char → List Char
  | _, [] => []
  | upper, c :: cs =>
    let c2 := if upper then c.toUpper else c.toLower
    c2 :: canonicalChars (c2 == '-') cs

/-- Go `http.CanonicalHeaderKey` (net/textproto `CanonicalMIMEHeaderKey`):
canonicalise the case of a header key; a key containing an invalid
character is returned unchanged. -/
def canonicalHeaderKey (s : String) : String :=
  if s.toList.all validHeaderFieldChar then String.mk (canonicalChars true s.toList) else s

/-- The hop-by-hop headers dropped by the proxy (proxy.go `hopHeaders`,
a `map[string]bool` in the source, here the list of its keys). -/
def hopHeaders : List String :=
  ["Te", "Connection", "Proxy-Connection", "Keep-Alive", "Proxy-Authenticate",
   "Proxy-Authorization", "Trailer", "Transfer-Encoding", "Upgrade"]

/-- proxy.go `copyHeader`/`cloneHeader`: copy every entry into a fresh map
under its canonical-case key. -/
def cloneHeader (h : Header) : Header :=
  h.map (fun kv => (canonicalHeaderKey kv.1, kv.2))

/-- proxy.go `copyHeaderExcluding`/`cloneHeaderExcluding`: copy the entries
whose key is not in the exclusion set, under canonical-case keys.  (As the
source comment notes, the exclusion lookup uses the stored key as is,
relying on the http package storing keys canonically.) -/
def cloneHeaderExcluding (h : Header) (excludeHeaders : List String) : Header :=
  h.filterMap (fun kv =>
    if excludeHeaders.contains kv.1 then none
    else some (canonicalHeaderKey kv.1, kv.2))

/-- The standard base64 alphabet, for the basic-auth header value. -/
def base64Alphabet : List Char :=
  "ABCDEFGHIJKLMNOPQRSTUVWXYZabcdefghijklmnopqrstuvwxyz0123456789+/".toList

/-- Digit of the standard base64 alphabet. -/
def base64Char (n : Nat) : Char := base64Alphabet.getD n 'A'

/-- Standard base64 with padding over a byte list, three bytes a group. -/
def base64Groups : List Nat → List Char
  | b1 :: b2 :: b3 :: rest =>
      base64Char (b1 / 4) :: base64Char (b1 % 4 * 16 + b2 / 16) ::
      base64Char (b2 % 16 * 4 + b3 / 64) :: base64Char (b3 % 64) :: base64Groups rest
  | [b1, b2] =>
      [base64Char (b1 / 4), base64Char (b1 % 4 * 16 + b2 / 16),
       base64Char (b2 % 16 * 4), '=']
  | [b1] =>
      [base64Char (b1 / 4), base64Char (b1 % 4 * 16), '=', '=']
  | [] => []

/-- Go `base64.StdEncoding.EncodeToString` over the bytes of a string
(userinfo strings are ASCII here). -/
def base64EncodeString (s : String) : String :=
  String.mk (base64Groups (s.toList.map Char.toNat))

/-- Key of the User-Agent header. -/
def uaKey : String := "User-Agent"

/-- Key of the Authorization header. -/
def authKey : String := "Authorization"

/-- Key of the Server header. -/
def serverKey : String := "Server"

/-- Go `http.Header.Add`: append a value under the canonical key, keeping
any existing values (Go appends to the slice stored in the map). -/
def headerAdd (h : Header) (k v : String) : Header :=
  let ck := canonicalHeaderKey k
  if (h.lookup ck).isSome then
    h.map (fun kv => if kv.1 = ck then (kv.1, kv.2 ++ [v]) else kv)
  else
    h ++ [(ck, [v])]

/-- Go `http.Header.Get` specialised to keys already in canonical case:
the first value stored under the key, or the empty string. -/
def headerGet (h : Header) (k : String) : String :=
  match h.lookup k with
  | some (v :: _) => v
  | _ => ""

/-- Go `http.Header.Set` specialised to keys already in canonical case:
replace the value slice under the key. -/
def headerSet (h : Header) (k v : String) : Header :=
  if (h.lookup k).isSome then
    h.map (fun kv => if kv.1 = k then (kv.1, [v]) else kv)
  else h ++ [(k, [v])]

/-- proxy.go `addBranding`: set `Server: Skipper` unless a Server header
value is already present. -/
def addBranding (h : Header) : Header :=
  if headerGet h serverKey = "" then headerSet h serverKey ("Skipper") else h

/-- Header treatment of proxy.go `mapRequest` (lines 498-513): clone the
inbound header map (dropping the hop-by-hop headers when removeHopHeaders
is set), force an empty User-Agent value when the header is absent, and
add a basic-auth Authorization value when the inbound URL carries
userinfo (`urlUser` is `u.User.String()` when present). -/
def mapRequestHeader (removeHopHeaders : Bool) (h : Header) (urlUser : Option String) : Header :=
  let rrh := if removeHopHeaders then cloneHeaderExcluding h hopHeaders else cloneHeader h
  let rrh2 := if (rrh.lookup uaKey).isSome then rrh else rrh ++ [(uaKey, [""])]
  match urlUser with
  | none => rrh2
  | some up => headerAdd rrh2 authKey ("Basic " ++ base64EncodeString up)

/-- The access-log filter settings (filters/accesslog `AccessLogFilter`):
an enable flag and an optional list of status-code prefixes. -/
structure AccessLogFilter where
  enable : Bool
  prefixes : List Int
deriving DecidableEq, Repr

/-- The `switch` body of proxy.go `shouldLog`: a prefix below 10 matches a
whole status class, one below 100 matches a decade, any other must equal
the status code. -/
def matchPrefixSwitch (statusCode p : Int) : Bool :=
  if p < 10 then decide (statusCode ≥ p * 100 ∧ statusCode < (p + 1) * 100)
  else if p < 100 then decide (statusCode ≥ p * 10 ∧ statusCode < (p + 1) * 10)
  else statusCode == p

/-- The `for` loop of proxy.go `shouldLog`: recompute `match` for each
prefix and break as soon as it is true; the second argument is the current
value of the `match` variable. -/
def shouldLogLoop (statusCode : Int) : List Int → Bool → Bool
  | [], m => m
  | p :: ps, _ =>
    let m := matchPrefixSwitch statusCode p
    if m then m else shouldLogLoop statusCode ps m

/-- proxy.go `shouldLog` (lines 1337-1356): with no prefixes the enable
flag decides; otherwise log iff the loop's match outcome equals the enable
flag. -/
def shouldLog (statusCode : Int) (filter : AccessLogFilter) : Bool :=
  if filter.prefixes.length = 0 then filter.enable
  else shouldLogLoop statusCode filter.prefixes false == filter.enable

/-- The loop with break computes exactly "some prefix matches" whenever
the prefix list is non-empty. -/
theorem shouldLogLoop_eq_any (s : Int) (ps : List Int) (m : Bool) (hne : ps ≠ []) :
    shouldLogLoop s ps m = ps.any (matchPrefixSwitch s) := by
  induction ps generalizing m with
  | nil => exact absurd rfl hne
  | cons p ps ih =>
    by_cases hm : matchPrefixSwitch s p = true
    · simp [shouldLogLoop, hm]
    · simp only [Bool.not_eq_true] at hm
      rcases ps with _ | ⟨q, qs⟩
      · simp [shouldLogLoop, hm]
      · simp [shouldLogLoop, hm]
        exact ih false (List.cons_ne_nil q qs)

/-- proxy.go `proxyError` (the `err` message string is not modelled; the
fields that drive control flow and the response are): the explicit status
code, the `handled` flag (response already written), the `dialingFailed`
flag (failure before any HTTP byte was sent) and the additional response
headers. -/
structure ProxyError where
  code : Int := 0
  handled : Bool := false
  dialingFailed : Bool := false
  additionalHeader : Header := []
deriving DecidableEq, Repr

/-- proxy.go `(*proxyError).DialError`. -/
def ProxyError.DialError (e : ProxyError) : Bool := e.dialingFailed

/-- The errors that can reach proxy.go `errorResponse`.  `maxLoopbacks`
models the sentinel `errMaxLoopbacksReached` (a `maxLoopbackError`, not a
`*proxyError`); `routeLookupFailed` models the sentinel pointer
`errRouteLookupFailed` (compared by identity in `errorResponse`);
`proxyErr` models any other `*proxyError`. -/
inductive PipelineError where
  | maxLoopbacks
  | routeLookupFailed
  | proxyErr (pe : ProxyError)
deriving DecidableEq, Repr

/-- `Error()` string of the errors `do` returns by themselves. -/
def PipelineError.message : PipelineError → String
  | .maxLoopbacks => "max loopbacks reached"
  | .routeLookupFailed => "route lookup failed"
  | .proxyErr _ => "proxy error"

/-- proxy.go `errCircuitBreakerOpen`: a proxy error with status 503 and
the `X-Circuit-Open: true` response header. -/
def errCircuitBreakerOpen : PipelineError :=
  .proxyErr { code := 503, additionalHeader := [("X-Circuit-Open", ["true"])] }

/-- The `handled` flag of an error as seen by `errorResponse`'s
`err.(*proxyError)` type assertion (false when the error is not a
`*proxyError`; the `errRouteLookupFailed` sentinel is a `*proxyError`
with `handled == false`). -/
def PipelineError.handledFlag : PipelineError → Bool
  | .proxyErr pe => pe.handled
  | _ => false

/-- The `additionalHeader` carried by the error (empty for non-proxy
errors and for the route-lookup sentinel, whose header field is nil). -/
def PipelineError.additionalHeaderOf : PipelineError → Header
  | .proxyErr pe => pe.additionalHeader
  | _ => []

/-- What `errorResponse` emits: in debug mode, the debug JSON document;
otherwise, via `sendError`, the plain-text status page for a code together
with the error's additional headers. -/
inductive ErrorWrite where
  | debugOut
  | statusPage (code : Int) (additionalHeader : Header)
deriving DecidableEq, Repr

/-- The `defaultHTTPStatus` computation of proxy.go `WithParams` (lines
685-689): the configured value when it lies between StatusContinue (100)
and StatusNetworkAuthenticationRequired (511), else StatusNotFound (404). -/
def defaultHTTPStatusOf (configured : Int) : Int :=
  if 100 ≤ configured ∧ configured ≤ 511 then configured else 404

/-- proxy.go `errorResponse` (lines 1224-1310): return without writing for
a handled proxy error; otherwise resolve the status code (route-lookup
sentinel to the configured default, proxy-error code -1 to 502, any other
non-zero proxy-error code to itself, everything else to 500) and emit
either the debug document or, through `sendError`, the status page with
the error's additional headers. -/
def errorResponse (debug : Bool) (defaultHTTPStatus : Int) (e : PipelineError) :
    Option ErrorWrite :=
  if e.handledFlag then none
  else
    let code : Int :=
      match e with
      | .routeLookupFailed => defaultHTTPStatus
      | .proxyErr pe =>
        if pe.code = -1 then 502
        else if pe.code ≠ 0 then pe.code
        else 500
      | .maxLoopbacks => 500
    if debug then some .debugOut
    else some (.statusPage code e.additionalHeaderOf)

/-- The error state of a Go context (`ctx.Err()`): nil, `Canceled`, or
`DeadlineExceeded`. -/
inductive CtxErr where
  | canceled
  | deadlineExceeded
deriving DecidableEq, Repr

/-- An HTTP response as far as the engine observes it: status code and
headers. -/
structure Response where
  statusCode : Int
  header : Header := []
deriving DecidableEq, Repr

/-- Classification of a non-nil error returned by the round tripper in
proxy.go `makeBackendRequest`: an error that already is a `*proxyError`
(e.g. a dial failure from `skipperDialer.DialContext`), a `net.Error`
with its timeout flag, or any other error. -/
inductive BackendErr where
  | proxyoid (pe : ProxyError)
  | netErr (timeout : Bool)
  | otherErr
deriving DecidableEq, Repr

/-- The roundtrip-error mapping of proxy.go `makeBackendRequest` (lines
925-967).  `ctxErr` is the state of `req.Context().Err()` at the time the
error is observed: a cancelled context maps to 499 and an exceeded
deadline to 504 before the error itself is inspected; then a `*proxyError`
passes through (its message is wrapped, its fields are kept), a net.Error
maps to 504 when it reports timeout and 503 otherwise, and any other
error becomes a `*proxyError` with code 0. -/
def mapRoundTripError (ctxErr : Option CtxErr) (e : BackendErr) : ProxyError :=
  match ctxErr with
  | some .canceled => { code := 499 }
  | some .deadlineExceeded => { code := 504 }
  | none =>
    match e with
    | .proxyoid pe => pe
    | .netErr timeout => { code := if timeout then 504 else 503 }
    | .otherErr => { code := 0 }

/-- Outcome of `roundTripper.RoundTrip` as the engine observes it. -/
inductive RoundTripOutcome where
  | ok (rsp : Response)
  | errored (e : BackendErr) (ctxErr : Option CtxErr)
deriving DecidableEq, Repr

/-- The effectful collaborators of proxy.go `makeBackendRequest`, supplied
as oracles: whether `mapRequest` fails, the backend rate-limit decision of
`rejectBackend` (the configured status code when the limiter rejects),
whether the upgrade path takes over, whether `getRoundTripper` fails, and
the round-trip outcome. -/
structure MBREnv where
  mapFails : Bool := false
  backendRatelimitStatus : Option Int := none
  upgradeHandled : Bool := false
  roundTripperLookupFails : Bool := false
  roundTrip : RoundTripOutcome
deriving DecidableEq, Repr

/-- proxy.go `makeBackendRequest` (lines 872-968): a `mapRequest` failure
is a plain proxy error (code 0); a backend rate-limit rejection returns a
synthetic response with the configured status and an empty body; an
upgrade request is delegated and reported as handled; a `getRoundTripper`
failure maps to 502; otherwise the round trip runs and a non-nil error is
mapped by `mapRoundTripError`. -/
def makeBackendRequest (env : MBREnv) : Except ProxyError Response :=
  if env.mapFails then .error {}
  else
    match env.backendRatelimitStatus with
    | some status => .ok { statusCode := status, header := [("Content-Length", ["0"])] }
    | none =>
      if env.upgradeHandled then .error { handled := true }
      else if env.roundTripperLookupFails then .error { code := 502 }
      else
        match env.roundTrip with
        | .ok rsp => .ok rsp
        | .errored e ctxErr => .error (mapRoundTripError ctxErr e)

/-- The status override of proxy.go `serveResponse` (lines 1196-1206):
before the status line is written, a non-nil inbound context error (client
cancellation or an elapsed deadline) rewrites the response status to 499;
the returned response's status code is what `WriteHeader` then emits. -/
def serveResponse (inboundCtxErr : Option CtxErr) (rsp : Response) : Response :=
  if inboundCtxErr.isSome then { rsp with statusCode := 499 } else rsp

/-- Kinds of the request body as the retry predicate distinguishes them:
nil, the sentinel `http.NoBody`, or an actual body. -/
inductive BodyKind where
  | nilBody
  | noBody
  | present
deriving DecidableEq, Repr

/-- The inbound request as the engine observes it: the body kind and the
inbound context's error state. -/
structure Request where
  body : BodyKind := .nilBody
  ctxErr : Option CtxErr := none
deriving DecidableEq, Repr

/-- The per-request state bag.  Modelled from the spec: the state bag is a
`map[string]interface{}` whose known key set is closed; of its keys only
the `scheduler.LIFOKey` entry (an ordered `[]func()` of zero-argument
cleanup callbacks appended by filters) matters to the claims, modelled as
a list of callback identifiers in the order the callbacks were pushed. -/
structure StateBag where
  lifo : List Nat := []
deriving DecidableEq, Repr

/-- The part of the request context that filters can read and mutate:
the state bag, the request, the response, and the two short-circuit flags
(`shunted` and the legacy `deprecatedShunted`).  Modelled from the spec:
the context's shunt methods read per-request flags set by filters. -/
structure FilterState where
  stateBag : StateBag := {}
  request : Request := {}
  response : Option Response := none
  shuntedFlag : Bool := false
  deprecatedShuntedFlag : Bool := false
deriving DecidableEq, Repr

/-- routing.RouteFilter as the engine consumes it: a name and the two
opaque hooks.  Hooks are total functions here; the `tryCatch` panic
isolation wrapped around each call in the source means a panicking hook
acts as the identity on the context, which a total function subsumes. -/
structure RouteFilter where
  name : String
  request : FilterState → FilterState
  response : FilterState → FilterState

/-- eskip backend types of a route. -/
inductive BackendType where
  | network
  | shunt
  | loopback
  | dynamic
  | lb
deriving DecidableEq, Repr

/-- The route fields the engine reads: identifier, backend type, the
legacy `Shunt` flag and the ordered filter chain. -/
structure Route where
  id : String := ""
  backendType : BackendType := .network
  shuntFlag : Bool := false
  filters : List RouteFilter := []

/-- The request context owned by the pipeline: the loopback depth counter,
the matched route (none before `applyRoute` ran) and the filter-visible
state. -/
structure Ctx where
  executionCounter : Int := 0
  route : Option Route := none
  fs : FilterState := {}

/-- proxy.go `applyFiltersToRequest` (lines 741-778): run the request
hooks in declared order, collecting each executed filter, and stop right
after the first filter that left the context shunted (legacy or modern
flag).  Returns the final state and the executed prefix. -/
def applyFiltersToRequest : List RouteFilter → FilterState → FilterState × List RouteFilter
  | [], fs => (fs, [])
  | fi :: rest, fs =>
    let fs1 := fi.request fs
    if fs1.deprecatedShuntedFlag || fs1.shuntedFlag then (fs1, [fi])
    else
      let r := applyFiltersToRequest rest fs1
      (r.1, fi :: r.2)

/-- Helper for `applyFiltersToResponse`: run response hooks over a list in
its order, returning the final state and the names in execution order. -/
def applyResponseHooks : List RouteFilter → FilterState → FilterState × List String
  | [], fs => (fs, [])
  | fi :: rest, fs =>
    let fs1 := fi.response fs
    let r := applyResponseHooks rest fs1
    (r.1, fi.name :: r.2)

/-- proxy.go `applyFiltersToResponse` (lines 781-809): run the response
hooks of the given filters in reverse order (the source indexes
`filters[last-i]` for increasing `i`, which is exactly a pass over the
reversed list). -/
def applyFiltersToResponse (filters : List RouteFilter) (fs : FilterState) :
    FilterState × List String :=
  applyResponseHooks filters.reverse fs

/-- Observable engine actions recorded while `do` runs: a backend attempt
(a call to `makeBackendRequest`), a circuit-breaker `done` report with its
success argument, a full drain of the request body, and the invocation of
a LIFO cleanup callback. -/
inductive Event where
  | backendAttempt
  | breakerDone (success : Bool)
  | bodyDrained
  | lifo (id : Nat)
deriving DecidableEq, Repr

/-- The circuit-breaker decision for the route, as `checkBreaker` can
observe it: no breaker configured (no registry or no breaker for the
settings), or a breaker that allows or denies. -/
inductive BreakerOracle where
  | noBreaker
  | allow
  | deny
deriving DecidableEq, Repr

/-- proxy.go `checkBreaker` (lines 1015-1034): without a configured
breaker the call is allowed with no `done` callback; with one, `Allow`
decides, and on denial a non-nil request body is drained and discarded.
Returns (done-callback present, allowed, events). -/
def checkBreaker (br : BreakerOracle) (req : Request) : Bool × Bool × List Event :=
  match br with
  | .noBreaker => (false, true, [])
  | .allow => (true, true, [])
  | .deny => (true, false, if req.body ≠ .nilBody then [.bodyDrained] else [])

/-- proxy.go `retryable` (lines 1172-1177): a failed attempt may be
retried iff the error code is not 499, it was a dial failure, the route
is load balanced, and the request body is nil or the `http.NoBody`
sentinel.  (`ctx.Request()` is never nil in the pipeline — the context is
built from the inbound request — and the route is set by `applyRoute`
before any backend call; the `none` case is unreachable there.) -/
def retryable (ctx : Ctx) (perr : ProxyError) : Bool :=
  match ctx.route with
  | some rt =>
    perr.code ≠ 499 && perr.DialError && rt.backendType == .lb &&
      (ctx.fs.request.body == .nilBody || ctx.fs.request.body == .noBody)
  | none => false

/-- The backend-call section of proxy.go `do` (lines 1122-1165): make the
backend request; on error report `done(false)` to the breaker, and when
`retryable` holds issue exactly one retry whose failure is surfaced;
on a response (first or retried) report `done(status < 500)`.  The two
attempt outcomes are oracle inputs; the result carries the surfaced
outcome and the recorded events. -/
def backendPhase (first second : Except ProxyError Response) (doneAvail : Bool)
    (ctx : Ctx) : Except ProxyError Response × List Event :=
  match first with
  | .ok rsp =>
    (.ok rsp, [.backendAttempt] ++
      (if doneAvail then [.breakerDone (decide (rsp.statusCode < 500))] else []))
  | .error perr =>
    let ev0 := [.backendAttempt] ++ (if doneAvail then [.breakerDone false] else [])
    if retryable ctx perr then
      match second with
      | .error perr2 => (.error perr2, ev0 ++ [.backendAttempt])
      | .ok rsp =>
        (.ok rsp, ev0 ++ [.backendAttempt] ++
          (if doneAvail then [.breakerDone (decide (rsp.statusCode < 500))] else []))
    else (.error perr, ev0)

/-- Modelled from the spec: `ctx.wasExecuted()` — the context was already
used for a request iff the execution counter is non-zero ("checked once
per root request (`executionCounter == 0`)"); context.go is not part of
the sources. -/
def wasExecuted (ctx : Ctx) : Bool := ctx.executionCounter ≠ 0

/-- Modelled from the spec: `ctx.ensureDefaultResponse()` — on the shunt
path the engine "ensures a default response exists": when no response was
assembled by the filters, an empty default one is installed; context.go
is not part of the sources, the default status is taken as 404
(StatusNotFound). -/
def ensureDefaultResponse (fs : FilterState) : FilterState :=
  match fs.response with
  | some _ => fs
  | none => { fs with response := some { statusCode := 404, header := [] } }

/-- The effectful collaborators of one invocation of proxy.go `do`,
supplied as oracles: the loop budget, the debug flag, the global
rate-limit decision with the headers a rate-limit error would carry, the
route lookup result, the breaker decision, the two backend attempt
outcomes (each standing for one `makeBackendRequest` call), the outcome
of the recursive `do` on the cloned context for a loopback backend, and
whether the debug-mode `mapRequest` fails. -/
structure DoEnv where
  maxLoops : Int := 9
  debug : Bool := false
  globalRatelimited : Bool := false
  ratelimitHeader : Header := []
  routeLookup : Option Route := none
  breaker : BreakerOracle := .noBreaker
  firstAttempt : Except ProxyError Response := .error {}
  secondAttempt : Except ProxyError Response := .error {}
  loopResult : Except PipelineError Response := .error .maxLoopbacks
  debugMapFails : Bool := false

/-- Result of one `do` invocation: the returned error (none on success),
the final context, and the trace of observable engine actions. -/
structure DoResult where
  err : Option PipelineError
  ctx : Ctx
  trace : List Event

/-- Common tail of the non-error paths of `do` (lines 1167-1169): add the
branding header to the response and run the response filters over the
executed prefix. -/
def finishResponse (ctx : Ctx) (processed : List RouteFilter) (ev : List Event) : DoResult :=
  let fs1 := { ctx.fs with
    response := ctx.fs.response.map (fun r => { r with header := addBranding r.header }) }
  let fs2 := (applyFiltersToResponse processed fs1).1
  ⟨none, { ctx with fs := fs2 }, ev⟩

/-- The body of proxy.go `do` after the loop guard and the cleanup defer
(lines 1056-1169): global rate limit for a root context, counter
increment, route lookup, request filters, then the branch over the
backend situation — deprecated shunt (handled), shunt (drain body,
default response), loopback (recursive result), debug, or the normal path
through the circuit breaker and `backendPhase`. -/
def doBody (env : DoEnv) (ctx0 : Ctx) : DoResult :=
  if ¬ wasExecuted ctx0 ∧ env.globalRatelimited then
    ⟨some (.proxyErr { code := 429, additionalHeader := env.ratelimitHeader }), ctx0, []⟩
  else
    let ctx1 := { ctx0 with executionCounter := ctx0.executionCounter + 1 }
    match env.routeLookup with
    | none => ⟨some .routeLookupFailed, ctx1, []⟩
    | some route =>
      let ctx2 := { ctx1 with route := some route }
      let fr := applyFiltersToRequest route.filters ctx2.fs
      let ctx3 := { ctx2 with fs := fr.1 }
      if fr.1.deprecatedShuntedFlag then
        ⟨some (.proxyErr { handled := true }), ctx3, []⟩
      else if fr.1.shuntedFlag || route.shuntFlag || route.backendType == .shunt then
        let ev := if ctx3.fs.request.body ≠ .nilBody then [Event.bodyDrained] else []
        finishResponse { ctx3 with fs := ensureDefaultResponse ctx3.fs } fr.2 ev
      else if route.backendType == .loopback then
        match env.loopResult with
        | .error e => ⟨some e, ctx3, []⟩
        | .ok rsp => finishResponse { ctx3 with fs := { fr.1 with response := some rsp } } fr.2 []
      else if env.debug then
        if env.debugMapFails then ⟨some (.proxyErr {}), ctx3, []⟩
        else finishResponse
          { ctx3 with fs := { fr.1 with response := some { statusCode := 0, header := [] } } }
          fr.2 []
      else
        let cb := checkBreaker env.breaker fr.1.request
        if ¬ cb.2.1 then ⟨some errCircuitBreakerOpen, ctx3, cb.2.2⟩
        else
          let bp := backendPhase env.firstAttempt env.secondAttempt cb.1 ctx3
          match bp.1 with
          | .error perr => ⟨some (.proxyErr perr), ctx3, cb.2.2 ++ bp.2⟩
          | .ok rsp =>
            finishResponse { ctx3 with fs := { fr.1 with response := some rsp } } fr.2
              (cb.2.2 ++ bp.2)

/-- proxy.go `do` (lines 1044-1170; `do` is a Lean keyword, hence the
name): when the execution counter already exceeds the loop budget, fail
with `errMaxLoopbacksReached` at once — this happens before the cleanup
defer is installed, so nothing else runs; otherwise run the body, after
which the deferred drain invokes every callback of the state bag's LIFO
list, iterating the slice from its start (`for _, done := range
pendingLIFO`). -/
def doCall (env : DoEnv) (ctx : Ctx) : DoResult :=
  if ctx.executionCounter > env.maxLoops then ⟨some .maxLoopbacks, ctx, []⟩
  else
    let r := doBody env ctx
    { r with trace := r.trace ++ r.ctx.fs.stateBag.lifo.map Event.lifo }

/-- The switch body of `shouldLog` matches exactly the prefix relation the
spec states: a prefix below 10 matches the status class, one between 10
and 99 the decade, one of 100 or more only the exact status code. -/
theorem matchPrefixSwitch_iff (s p : Int) :
    matchPrefixSwitch s p = true ↔
      ((p < 10 ∧ p * 100 ≤ s ∧ s < (p + 1) * 100) ∨
       (10 ≤ p ∧ p < 100 ∧ p * 10 ≤ s ∧ s < (p + 1) * 10) ∨
       (100 ≤ p ∧ s = p)) := by
  unfold matchPrefixSwitch
  split
  · next h => simp only [decide_eq_true_eq]; omega
  · split
    · next h h2 => simp only [decide_eq_true_eq]; omega
    · next h h2 => rw [beq_iff_eq]; omega

/-- C8: the access-log decision: a status matches a single-digit prefix p
iff p*100 ≤ status < (p+1)*100, a two-digit prefix p iff
p*10 ≤ status < (p+1)*10, and a three-digit prefix iff equal; with an
empty prefix list the enable flag decides unconditionally; otherwise the
request is logged iff matched == enable.  In particular, for prefixes=[2]
with enable=true, status 201 logs and 500 does not; for prefixes=[50]
with enable=false, status 500 does not log and 404 does. -/
theorem access_log_decision :
    (∀ (s : Int) (f : AccessLogFilter),
      shouldLog s f = true ↔
        (if f.prefixes = [] then f.enable = true
         else ((∃ p ∈ f.prefixes,
            (p < 10 ∧ p * 100 ≤ s ∧ s < (p + 1) * 100) ∨
            (10 ≤ p ∧ p < 100 ∧ p * 10 ≤ s ∧ s < (p + 1) * 10) ∨
            (100 ≤ p ∧ s = p)) ↔ f.enable = true)))
    ∧ shouldLog 201 ⟨true, [2]⟩ = true
    ∧ shouldLog 500 ⟨true, [2]⟩ = false
    ∧ shouldLog 500 ⟨false, [50]⟩ = false
    ∧ shouldLog 404 ⟨false, [50]⟩ = true := by
  refine ⟨?_, by decide, by decide, by decide, by decide⟩
  intro s f
  by_cases hp : f.prefixes = []
  · simp [shouldLog, hp]
  · rw [if_neg hp]
    unfold shouldLog
    rw [if_neg (fun h => hp (List.length_eq_zero.mp h))]
    have hany : (f.prefixes.any (matchPrefixSwitch s) = true) ↔
        (∃ p ∈ f.prefixes,
          (p < 10 ∧ p * 100 ≤ s ∧ s < (p + 1) * 100) ∨
          (10 ≤ p ∧ p < 100 ∧ p * 10 ≤ s ∧ s < (p + 1) * 10) ∨
          (100 ≤ p ∧ s = p)) := by
      rw [List.any_eq_true]
      exact exists_congr fun p => and_congr_right fun _ => matchPrefixSwitch_iff s p
    rw [shouldLogLoop_eq_any s f.prefixes false hp, beq_iff_eq, Bool.eq_iff_iff, hany]

/-- C5: the roundtrip-error mapping of `makeBackendRequest`: a cancelled
request context maps to 499 and an exceeded deadline to 504; an error
that already is a proxy error passes through unchanged (code preserved);
a net.Error maps to 504 with timeout and 503 without; any other error
becomes a proxy error with code 0, which the error responder turns into
status 500. -/
theorem backend_error_mapping :
    (∀ e : BackendErr, mapRoundTripError (some .canceled) e = { code := 499 }) ∧
    (∀ e : BackendErr, mapRoundTripError (some .deadlineExceeded) e = { code := 504 }) ∧
    (∀ pe : ProxyError, mapRoundTripError none (.proxyoid pe) = pe) ∧
    mapRoundTripError none (.netErr true) = { code := 504 } ∧
    mapRoundTripError none (.netErr false) = { code := 503 } ∧
    (mapRoundTripError none .otherErr).code = 0 ∧
    errorResponse false 404 (.proxyErr (mapRoundTripError none .otherErr)) =
      some (.statusPage 500 []) ∧
    (∀ (e : BackendErr) (ctxErr : Option CtxErr),
      makeBackendRequest { roundTrip := .errored e ctxErr } =
        .error (mapRoundTripError ctxErr e)) := by
  exact ⟨fun e => rfl, fun e => rfl, fun pe => rfl, rfl, rfl, rfl, rfl,
    fun e ctxErr => rfl⟩

/-- C10: before streaming starts, any non-nil error on the inbound
request's context — client cancellation or an elapsed deadline alike —
overrides the response status written to the client to 499; in
particular a deadline that elapsed before streaming yields 499, not 504;
without a context error the backend status is written unchanged. -/
theorem stream_status_override :
    (∀ (e : CtxErr) (rsp : Response),
      (serveResponse (some e) rsp).statusCode = 499) ∧
    (serveResponse (some .deadlineExceeded) { statusCode := 504 }).statusCode = 499 ∧
    (∀ rsp : Response, serveResponse none rsp = rsp) := by
  exact ⟨fun e rsp => rfl, rfl, fun rsp => rfl⟩

/-- C4: the error responder: the route-lookup sentinel yields the
configured default status (404 when the configuration is out of range,
hence 404 by default); a proxy error with code -1 yields 502; a proxy
error with any other non-zero code yields that code; every other error
yields 500; and a proxy error with handled set writes nothing at all. -/
theorem error_responder_status :
    (∀ d : Int, errorResponse false d .routeLookupFailed = some (.statusPage d [])) ∧
    errorResponse false (defaultHTTPStatusOf 0) .routeLookupFailed = some (.statusPage 404 []) ∧
    (∀ (dbg : Bool) (d : Int) (pe : ProxyError), pe.handled = true →
      errorResponse dbg d (.proxyErr pe) = none) ∧
    (∀ (d : Int) (pe : ProxyError), pe.handled = false → pe.code = -1 →
      errorResponse false d (.proxyErr pe) = some (.statusPage 502 pe.additionalHeader)) ∧
    (∀ (d : Int) (pe : ProxyError), pe.handled = false → pe.code ≠ -1 → pe.code ≠ 0 →
      errorResponse false d (.proxyErr pe) = some (.statusPage pe.code pe.additionalHeader)) ∧
    (∀ (d : Int) (pe : ProxyError), pe.handled = false → pe.code = 0 →
      errorResponse false d (.proxyErr pe) = some (.statusPage 500 pe.additionalHeader)) ∧
    (∀ d : Int, errorResponse false d .maxLoopbacks = some (.statusPage 500 [])) := by
  refine ⟨fun d => rfl, rfl, ?_, ?_, ?_, ?_, fun d => rfl⟩
  · intro dbg d pe h
    simp [errorResponse, PipelineError.handledFlag, h]
  · intro d pe h1 h2
    simp [errorResponse, PipelineError.handledFlag, PipelineError.additionalHeaderOf, h1, h2]
  · intro d pe h1 h2 h3
    simp [errorResponse, PipelineError.handledFlag, PipelineError.additionalHeaderOf, h1, h2, h3]
  · intro d pe h1 h2
    simp [errorResponse, PipelineError.handledFlag, PipelineError.additionalHeaderOf, h1, h2]

/-- Concrete instances of the error-responder mapping: code -1 yields a
502 page, a handled error writes nothing, the circuit-breaker error
yields its 503 page with its header, and a zero-code proxy error yields
500. -/
theorem error_responder_status_witness :
    errorResponse false 404 (.proxyErr { code := -1 }) = some (.statusPage 502 []) ∧
    errorResponse true 404 (.proxyErr { handled := true }) = none ∧
    errorResponse false 404 errCircuitBreakerOpen =
      some (.statusPage 503 [("X-Circuit-Open", ["true"])]) ∧
    errorResponse false 404 (.proxyErr {}) = some (.statusPage 500 []) := by
  have h := error_responder_status
  exact ⟨h.2.2.2.1 404 _ rfl rfl,
    h.2.2.1 true 404 _ rfl,
    h.2.2.2.2.1 404 _ rfl (by decide) (by decide),
    h.2.2.2.2.2.1 404 _ rfl rfl⟩

/-- The short-circuit condition checked by the request-filter loop after
each filter: `ctx.deprecatedShunted() || ctx.shunted()`. -/
def shuntSignal (fs : FilterState) : Bool :=
  fs.deprecatedShuntedFlag || fs.shuntedFlag

/-- The filter-state after running the request hooks of a filter list in
order, with no short-circuit check (used to state at which index a run
first signals shunt). -/
def foldRequestHooks (f : List RouteFilter) (fs : FilterState) : FilterState :=
  f.foldl (fun s fi => fi.request s) fs

/-- The response runner's name trace is the filter names in list order. -/
theorem applyResponseHooks_names (l : List RouteFilter) (fs : FilterState) :
    (applyResponseHooks l fs).2 = l.map RouteFilter.name := by
  induction l generalizing fs with
  | nil => rfl
  | cons fi rest ih => simp [applyResponseHooks, ih]

/-- The executed request-filter list is a prefix of the declared chain. -/
theorem applyFiltersToRequest_take (f : List RouteFilter) (fs : FilterState) :
    (applyFiltersToRequest f fs).2 = f.take ((applyFiltersToRequest f fs).2.length) := by
  induction f generalizing fs with
  | nil => rfl
  | cons fi rest ih =>
    simp only [applyFiltersToRequest]
    by_cases hs : ((fi.request fs).deprecatedShuntedFlag || (fi.request fs).shuntedFlag) = true
    · simp [hs]
    · simp only [Bool.not_eq_true] at hs
      simp only [hs, Bool.false_eq_true, if_false, List.length_cons, List.take_succ_cons,
        List.cons.injEq, true_and]
      exact ih (fi.request fs)

/-- When the run first signals shunt right after the filter at index k,
the executed prefix is exactly the first k+1 filters. -/
theorem applyFiltersToRequest_stop (f : List RouteFilter) (fs : FilterState) (k : Nat)
    (hk : k < f.length)
    (hsig : ∀ i, i ≤ k → (shuntSignal (foldRequestHooks (f.take (i + 1)) fs) = true ↔ i = k)) :
    (applyFiltersToRequest f fs).2 = f.take (k + 1) := by
  induction f generalizing fs k with
  | nil => exact absurd hk (by simp)
  | cons fi rest ih =>
    have h0 := hsig 0 (Nat.zero_le k)
    have hfold0 : foldRequestHooks ((fi :: rest).take 1) fs = fi.request fs := rfl
    rw [hfold0] at h0
    cases k with
    | zero =>
      have hsh : ((fi.request fs).deprecatedShuntedFlag || (fi.request fs).shuntedFlag) = true :=
        h0.mpr rfl
      simp [applyFiltersToRequest, hsh]
    | succ j =>
      have hsh : ((fi.request fs).deprecatedShuntedFlag || (fi.request fs).shuntedFlag) = false := by
        by_contra hc
        simp only [Bool.not_eq_false] at hc
        exact Nat.succ_ne_zero j (h0.mp hc).symm
      simp only [applyFiltersToRequest, hsh, Bool.false_eq_true, if_false,
        List.take_succ_cons, List.cons.injEq, true_and]
      refine ih (fi.request fs) j (by simpa using hk) ?_
      intro i hi
      have := hsig (i + 1) (Nat.succ_le_succ hi)
      have hfold : foldRequestHooks ((fi :: rest).take (i + 2)) fs =
          foldRequestHooks (rest.take (i + 1)) (fi.request fs) := rfl
      rw [hfold] at this
      rw [this]
      omega

/-- When no filter of the run signals shunt, the whole chain executes. -/
theorem applyFiltersToRequest_all (f : List RouteFilter) (fs : FilterState)
    (hsig : ∀ i, i < f.length → shuntSignal (foldRequestHooks (f.take (i + 1)) fs) = false) :
    (applyFiltersToRequest f fs).2 = f := by
  induction f generalizing fs with
  | nil => rfl
  | cons fi rest ih =>
    have h0 := hsig 0 (by simp)
    have hfold0 : foldRequestHooks ((fi :: rest).take 1) fs = fi.request fs := rfl
    rw [hfold0] at h0
    have h0' : ((fi.request fs).deprecatedShuntedFlag || (fi.request fs).shuntedFlag) = false := h0
    simp only [applyFiltersToRequest, h0', Bool.false_eq_true, if_false, List.cons.injEq, true_and]
    refine ih (fi.request fs) ?_
    intro i hi
    have := hsig (i + 1) (by simpa using hi)
    have hfold : foldRequestHooks ((fi :: rest).take (i + 2)) fs =
        foldRequestHooks (rest.take (i + 1)) (fi.request fs) := rfl
    rw [hfold] at this
    exact this

/-- C2: request filters run in declared order (the executed list is a
prefix of the declared chain, the whole chain when nothing shunts), and
the response phase runs exactly the executed prefix in reverse order; if
the run first signals shunt at index k, the request phase stops after
the k-th filter and the response phase runs filters k, k-1, ..., 0 and
no others. -/
theorem filter_chain_order :
    (∀ (f : List RouteFilter) (fs : FilterState),
      (applyFiltersToRequest f fs).2 = f.take ((applyFiltersToRequest f fs).2.length)) ∧
    (∀ (l : List RouteFilter) (fs : FilterState),
      (applyFiltersToResponse l fs).2 = (l.map RouteFilter.name).reverse) ∧
    (∀ (f : List RouteFilter) (fs : FilterState) (k : Nat),
      k < f.length →
      (∀ i, i ≤ k → (shuntSignal (foldRequestHooks (f.take (i + 1)) fs) = true ↔ i = k)) →
      (applyFiltersToRequest f fs).2 = f.take (k + 1) ∧
      (∀ fs2, (applyFiltersToResponse (applyFiltersToRequest f fs).2 fs2).2 =
        ((f.take (k + 1)).map RouteFilter.name).reverse)) ∧
    (∀ (f : List RouteFilter) (fs : FilterState),
      (∀ i, i < f.length → shuntSignal (foldRequestHooks (f.take (i + 1)) fs) = false) →
      (applyFiltersToRequest f fs).2 = f) := by
  refine ⟨applyFiltersToRequest_take, ?_, ?_, applyFiltersToRequest_all⟩
  · intro l fs
    unfold applyFiltersToResponse
    rw [applyResponseHooks_names, List.map_reverse]
  · intro f fs k hk hsig
    have hstop := applyFiltersToRequest_stop f fs k hk hsig
    refine ⟨hstop, ?_⟩
    intro fs2
    rw [hstop]
    unfold applyFiltersToResponse
    rw [applyResponseHooks_names, List.map_reverse]

/-- A no-op filter for the concrete scenarios. -/
def nopFilter (n : String) : RouteFilter :=
  { name := n, request := id, response := id }

/-- A filter whose request hook signals shunt. -/
def shuntingFilter (n : String) : RouteFilter :=
  { name := n, request := fun fs => { fs with shuntedFlag := true }, response := id }

/-- Concrete instance of the filter-ordering theorem: in a chain of three
filters whose middle one shunts, the request phase executes exactly the
first two and the response phase runs them in reverse order. -/
theorem filter_chain_order_witness :
    (applyFiltersToRequest [nopFilter ("f0"), shuntingFilter ("f1"), nopFilter ("f2")] {}).2 =
      [nopFilter ("f0"), shuntingFilter ("f1")] ∧
    (applyFiltersToResponse
      (applyFiltersToRequest [nopFilter ("f0"), shuntingFilter ("f1"), nopFilter ("f2")] {}).2
      {}).2 = ["f1", "f0"] := by
  have h := (filter_chain_order.2.2.1
    [nopFilter ("f0"), shuntingFilter ("f1"), nopFilter ("f2")] {} 1 (by decide)
    (by decide))
  exact ⟨h.1.trans rfl, (h.2 {}).trans rfl⟩

/-- The retry predicate holds exactly under the four conditions the spec
names: error code not 499, dial failure, load-balanced route, and a nil
or `http.NoBody` request body. -/
theorem retryable_iff (ctx : Ctx) (perr : ProxyError) :
    retryable ctx perr = true ↔
      (perr.code ≠ 499 ∧ perr.dialingFailed = true ∧
       (∃ rt, ctx.route = some rt ∧ rt.backendType = .lb) ∧
       (ctx.fs.request.body = .nilBody ∨ ctx.fs.request.body = .noBody)) := by
  unfold retryable
  cases hr : ctx.route with
  | none =>
    simp only [Bool.false_eq_true, false_iff]
    rintro ⟨-, -, ⟨rt, hrt, -⟩, -⟩
    exact Option.noConfusion hrt
  | some rt =>
    simp only [Bool.and_eq_true, ProxyError.DialError, beq_iff_eq, Bool.or_eq_true,
      decide_eq_true_eq, ne_eq]
    constructor
    · rintro ⟨⟨⟨hc, hd⟩, hlb⟩, hb⟩
      exact ⟨hc, hd, ⟨rt, rfl, hlb⟩, hb⟩
    · rintro ⟨hc, hd, ⟨rt2, hrt2, hlb⟩, hb⟩
      obtain rfl := Option.some.inj hrt2
      exact ⟨⟨⟨hc, hd⟩, hlb⟩, hb⟩

/-- C3: on a failed backend attempt a retry is issued exactly once iff
the error code is not 499, the error was a dial failure, the route is
load balanced, and the request body is nil or the `http.NoBody`
sentinel; in every other case the error is surfaced without retry, and a
failed retry surfaces the retry's error.  (At most two attempts ever
happen.) -/
theorem retry_policy :
    (∀ (ctx : Ctx) (perr : ProxyError),
      retryable ctx perr = true ↔
        (perr.code ≠ 499 ∧ perr.dialingFailed = true ∧
         (∃ rt, ctx.route = some rt ∧ rt.backendType = .lb) ∧
         (ctx.fs.request.body = .nilBody ∨ ctx.fs.request.body = .noBody))) ∧
    (∀ (first second : Except ProxyError Response) (doneAvail : Bool) (ctx : Ctx),
      (backendPhase first second doneAvail ctx).2.count .backendAttempt ≤ 2) ∧
    (∀ (first second : Except ProxyError Response) (doneAvail : Bool) (ctx : Ctx),
      ((backendPhase first second doneAvail ctx).2.count .backendAttempt = 2 ↔
        ∃ perr, first = .error perr ∧ retryable ctx perr = true)) ∧
    (∀ (second : Except ProxyError Response) (doneAvail : Bool) (ctx : Ctx)
        (perr : ProxyError), retryable ctx perr = false →
      (backendPhase (.error perr) second doneAvail ctx).1 = .error perr ∧
      (backendPhase (.error perr) second doneAvail ctx).2.count .backendAttempt = 1) ∧
    (∀ (doneAvail : Bool) (ctx : Ctx) (perr perr2 : ProxyError),
      retryable ctx perr = true →
      (backendPhase (.error perr) (.error perr2) doneAvail ctx).1 = .error perr2) := by
  refine ⟨retryable_iff, ?_, ?_, ?_, ?_⟩
  · intro first second doneAvail ctx
    rcases first with perr | rsp
    · by_cases hr : retryable ctx perr = true
      · rcases second with perr2 | rsp2 <;>
          simp [backendPhase, hr] <;> cases doneAvail <;> simp
      · simp only [Bool.not_eq_true] at hr
        simp [backendPhase, hr] <;> cases doneAvail <;> simp
    · simp [backendPhase] <;> cases doneAvail <;> simp
  · intro first second doneAvail ctx
    rcases first with perr | rsp
    · by_cases hr : retryable ctx perr = true
      · rcases second with perr2 | rsp2 <;>
          cases doneAvail <;> simp [backendPhase, hr]
      · simp only [Bool.not_eq_true] at hr
        cases doneAvail <;> simp [backendPhase, hr]
    · cases doneAvail <;> simp [backendPhase]
  · intro second doneAvail ctx perr hr
    cases doneAvail <;> simp [backendPhase, hr]
  · intro doneAvail ctx perr perr2 hr
    cases doneAvail <;> simp [backendPhase, hr]

/-- Concrete instances of the retry policy: a dial failure on a
load-balanced route with a nil body is retryable, a failed retry
surfaces the second error, and a 499 error yields a single attempt with
the first error surfaced. -/
theorem retry_policy_witness :
    retryable { route := some { backendType := .lb } } { dialingFailed := true } = true ∧
    (backendPhase (.error { dialingFailed := true }) (.error { code := 502 }) true
      { route := some { backendType := .lb } }).1 = .error { code := 502 } ∧
    (backendPhase (.error { code := 499, dialingFailed := true }) (.ok { statusCode := 200 })
      true { route := some { backendType := .lb } }).1 =
        .error { code := 499, dialingFailed := true } ∧
    (backendPhase (.error { code := 499, dialingFailed := true }) (.ok { statusCode := 200 })
      true { route := some { backendType := .lb } }).2.count .backendAttempt = 1 := by
  have h := retry_policy
  have h1 : retryable { route := some { backendType := .lb } }
      { dialingFailed := true } = true :=
    (h.1 _ _).mpr ⟨by decide, rfl, ⟨_, rfl, rfl⟩, Or.inl rfl⟩
  have h4 := h.2.2.2.1 (.ok { statusCode := 200 }) true
    { route := some { backendType := .lb } } { code := 499, dialingFailed := true }
    (by decide)
  exact ⟨h1, h.2.2.2.2 true _ _ _ h1, h4.1, h4.2⟩

/-- C6: a context whose execution counter already exceeds the loop
budget fails immediately with the "max loopbacks reached" error: the
trace is empty (no backend round-trip, and nothing else, happens), and
the error responder maps this error to status 500. -/
theorem max_loopbacks_guard (env : DoEnv) (ctx : Ctx) (d : Int)
    (h : ctx.executionCounter > env.maxLoops) :
    (doCall env ctx).err = some .maxLoopbacks ∧
    (doCall env ctx).trace = [] ∧
    Event.backendAttempt ∉ (doCall env ctx).trace ∧
    PipelineError.message .maxLoopbacks = "max loopbacks reached" ∧
    errorResponse false d .maxLoopbacks = some (.statusPage 500 []) := by
  refine ⟨?_, ?_, ?_, rfl, rfl⟩ <;> simp [doCall, h]

/-- Concrete instance of the loop guard: with the default budget of 9, a
context at execution counter 10 fails with the max-loopbacks error, an
empty trace, and a 500 error page. -/
theorem max_loopbacks_guard_witness :
    (doCall {} { executionCounter := 10 }).err = some .maxLoopbacks ∧
    (doCall {} { executionCounter := 10 }).trace = [] ∧
    errorResponse false 404 .maxLoopbacks = some (.statusPage 500 []) := by
  have h := max_loopbacks_guard {} { executionCounter := 10 } 404 (by decide)
  exact ⟨h.1, h.2.1, h.2.2.2.2⟩

/-- C7: when the route's circuit breaker denies the call on a normal
(non-shunt, non-loopback, non-debug) route, `do` returns the sentinel
circuit-open error, no backend attempt is recorded, a non-nil request
body is drained, and the error responder maps the sentinel to status 503
with the `X-Circuit-Open: true` header. -/
theorem circuit_breaker_open (env : DoEnv) (ctx : Ctx) (route : Route) (d : Int)
    (hroute : env.routeLookup = some route)
    (hdebug : env.debug = false)
    (hbr : env.breaker = .deny)
    (hshunt : route.shuntFlag = false)
    (hbt1 : route.backendType ≠ .shunt)
    (hbt2 : route.backendType ≠ .loopback)
    (hrl : wasExecuted ctx = true ∨ env.globalRatelimited = false)
    (hloops : ctx.executionCounter ≤ env.maxLoops)
    (hdepr : (applyFiltersToRequest route.filters ctx.fs).1.deprecatedShuntedFlag = false)
    (hsh : (applyFiltersToRequest route.filters ctx.fs).1.shuntedFlag = false) :
    (doCall env ctx).err = some errCircuitBreakerOpen ∧
    Event.backendAttempt ∉ (doCall env ctx).trace ∧
    ((applyFiltersToRequest route.filters ctx.fs).1.request.body ≠ .nilBody →
      Event.bodyDrained ∈ (doCall env ctx).trace) ∧
    errorResponse false d errCircuitBreakerOpen =
      some (.statusPage 503 [("X-Circuit-Open", ["true"])]) := by
  have hguard : ¬ ctx.executionCounter > env.maxLoops := not_lt.mpr hloops
  have hratelimit : ¬ (¬ wasExecuted ctx = true ∧ env.globalRatelimited = true) := by
    rcases hrl with h | h
    · exact fun hc => hc.1 h
    · exact fun hc => by rw [h] at hc; exact Bool.false_ne_true hc.2
  have hb1 : (route.backendType == BackendType.shunt) = false := by
    simpa using hbt1
  have hb2 : (route.backendType == BackendType.loopback) = false := by
    simpa using hbt2
  have hbody : (doCall env ctx).err = some errCircuitBreakerOpen ∧
      (doCall env ctx).trace =
        (if (applyFiltersToRequest route.filters ctx.fs).1.request.body ≠ .nilBody
          then [Event.bodyDrained] else []) ++
        (applyFiltersToRequest route.filters ctx.fs).1.stateBag.lifo.map Event.lifo := by
    unfold doCall
    rw [if_neg hguard]
    unfold doBody
    rw [if_neg hratelimit, hroute]
    simp only [hdepr, hsh, hshunt, hb1, hb2, hdebug, Bool.false_eq_true, if_false,
      Bool.or_self, Bool.or_false, Bool.false_or]
    rw [hbr]
    simp [checkBreaker]
  refine ⟨hbody.1, ?_, ?_, rfl⟩
  · rw [hbody.2]
    simp only [List.mem_append, List.mem_map, not_or]
    constructor
    · split
      · simp
      · simp
    · rintro ⟨i, -, h⟩
      exact Event.noConfusion h
  · intro hnb
    rw [hbody.2]
    simp [hnb]

/-- Concrete instance of the open-breaker behaviour: a plain network
route with a present request body, denied by the breaker, yields the
circuit-open error, a drained body, no backend attempt, and the 503
page with the `X-Circuit-Open` header. -/
theorem circuit_breaker_open_witness :
    (doCall { routeLookup := some {}, breaker := .deny }
      { fs := { request := { body := .present } } }).err = some errCircuitBreakerOpen ∧
    Event.backendAttempt ∉ (doCall { routeLookup := some {}, breaker := .deny }
      { fs := { request := { body := .present } } }).trace ∧
    Event.bodyDrained ∈ (doCall { routeLookup := some {}, breaker := .deny }
      { fs := { request := { body := .present } } }).trace ∧
    errorResponse false 404 errCircuitBreakerOpen =
      some (.statusPage 503 [("X-Circuit-Open", ["true"])]) := by
  have h := circuit_breaker_open { routeLookup := some {}, breaker := .deny }
    { fs := { request := { body := .present } } } {} 404
    rfl rfl rfl rfl (by decide) (by decide) (Or.inr rfl) (by decide) rfl rfl
  exact ⟨h.1, h.2.1, h.2.2.1 (by decide), h.2.2.2⟩

/-- Only the final deferred drain contributes LIFO-invocation events. -/
def lifoEvents (tr : List Event) : List Event :=
  tr.filter (fun e => match e with | .lifo _ => true | _ => false)

/-- The breaker gate records no LIFO invocation. -/
theorem checkBreaker_no_lifo (br : BreakerOracle) (req : Request) :
    lifoEvents (checkBreaker br req).2.2 = [] := by
  cases br
  · rfl
  · rfl
  · unfold checkBreaker
    split
    · rfl
    · rfl
    · split <;> rfl

/-- The backend phase records no LIFO invocation. -/
theorem backendPhase_no_lifo (first second : Except ProxyError Response)
    (doneAvail : Bool) (ctx : Ctx) :
    lifoEvents (backendPhase first second doneAvail ctx).2 = [] := by
  rcases first with perr | rsp
  · by_cases hr : retryable ctx perr = true
    · rcases second with perr2 | rsp2 <;> cases doneAvail <;>
        simp [backendPhase, hr, lifoEvents]
    · simp only [Bool.not_eq_true] at hr
      cases doneAvail <;> simp [backendPhase, hr, lifoEvents]
  · cases doneAvail <;> simp [backendPhase, lifoEvents]

/-- The body of `do` records no LIFO invocation: every LIFO event of a
`do` call comes from the single deferred drain. -/
theorem doBody_no_lifo (env : DoEnv) (ctx : Ctx) :
    lifoEvents (doBody env ctx).trace = [] := by
  rcases henv : env.routeLookup with _ | route
  · simp only [doBody, henv]
    split
    · rfl
    · rfl
  · simp only [doBody, henv]
    split
    · rfl
    · split
      · rfl
      · split
        · simp only [finishResponse]
          split <;> rfl
        · split
          · split
            · rfl
            · simp only [finishResponse]
              rfl
          · split
            · split
              · rfl
              · simp only [finishResponse]
                rfl
            · split
              · exact checkBreaker_no_lifo _ _
              · split
                · simp only [lifoEvents, List.filter_append, List.append_eq_nil]
                  exact ⟨checkBreaker_no_lifo _ _, backendPhase_no_lifo _ _ _ _⟩
                · simp only [finishResponse, lifoEvents, List.filter_append,
                    List.append_eq_nil]
                  exact ⟨checkBreaker_no_lifo _ _, backendPhase_no_lifo _ _ _ _⟩

/-- Filtering for LIFO events keeps a pure drain list unchanged. -/
theorem lifoEvents_map_lifo (l : List Nat) :
    lifoEvents (l.map Event.lifo) = l.map Event.lifo := by
  induction l with
  | nil => rfl
  | cons a t ih => simpa [lifoEvents, List.filter] using ih

/-- C1 (amended): when `do` returns through any exit path other than the
early max-loopbacks return, each callback held in the state bag's LIFO
list at return time is invoked exactly once, in the order of the list —
that is, in push (append) order, first pushed first, not in reverse-push
order; the early max-loopbacks return, which precedes the installation
of the cleanup defer, invokes none of them. -/
theorem lifo_cleanup_drain (env : DoEnv) (ctx : Ctx) :
    lifoEvents (doCall env ctx).trace =
      if ctx.executionCounter > env.maxLoops then []
      else (doCall env ctx).ctx.fs.stateBag.lifo.map Event.lifo := by
  by_cases h : ctx.executionCounter > env.maxLoops
  · simp [doCall, h, lifoEvents]
  · simp only [doCall, h, if_false]
    simp only [lifoEvents, List.filter_append]
    rw [show (List.filter (fun e => match e with | .lifo _ => true | _ => false)
        (doBody env ctx).trace) = lifoEvents (doBody env ctx).trace from rfl,
      doBody_no_lifo,
      show (List.filter (fun e => match e with | .lifo _ => true | _ => false)
        ((doBody env ctx).ctx.fs.stateBag.lifo.map Event.lifo)) =
        lifoEvents ((doBody env ctx).ctx.fs.stateBag.lifo.map Event.lifo) from rfl,
      lifoEvents_map_lifo, List.nil_append]

/-- C1 (counterexample): on a plain shunt route with two callbacks
pushed in order 0 then 1, the drain invokes them as 0 then 1 — slice
order, which differs from the claimed reverse-push order — and on the
early max-loopbacks exit path a pushed callback is not invoked at all. -/
theorem lifo_cleanup_counterexample :
    (doCall { routeLookup := some { backendType := .shunt } }
      { fs := { stateBag := { lifo := [0, 1] } } }).trace =
        [Event.lifo 0, Event.lifo 1] ∧
    [Event.lifo 0, Event.lifo 1] ≠ [Event.lifo 1, Event.lifo 0] ∧
    (doCall {} { executionCounter := 10, fs := { stateBag := { lifo := [0] } } }).trace
      = [] := by
  exact ⟨by decide, by decide, by decide⟩

/-- Lookup of an excluded key in the filtered clone yields nothing, as
long as the stored keys are canonical. -/
theorem cloneExcluding_lookup_none (h : Header) (excl : List String) (k : String)
    (hcanon : ∀ kv ∈ h, canonicalHeaderKey kv.1 = kv.1)
    (hk : excl.contains k = true) :
    (cloneHeaderExcluding h excl).lookup k = none := by
  induction h with
  | nil => rfl
  | cons a t ih =>
    have hat := hcanon a (List.mem_cons_self a t)
    have iht := ih (fun kv hkv => hcanon kv (List.mem_cons_of_mem a hkv))
    unfold cloneHeaderExcluding at iht ⊢
    by_cases he : excl.contains a.1 = true
    · simp only [List.filterMap_cons, he, if_true]
      exact iht
    · simp only [List.filterMap_cons, he, Bool.false_eq_true, if_false]
      have hne : (k == a.1) = false := by
        rw [beq_eq_false_iff_ne]
        intro heq
        rw [heq] at hk
        exact he hk
      rw [hat]
      simp only [List.lookup, hne]
      exact iht

/-- Lookup of a kept entry's key in the filtered clone yields its values,
when keys are canonical and pairwise distinct. -/
theorem cloneExcluding_lookup_some (h : Header) (excl : List String)
    (kv : String × List String)
    (hcanon : ∀ e ∈ h, canonicalHeaderKey e.1 = e.1)
    (hnodup : (h.map Prod.fst).Nodup)
    (hmem : kv ∈ h) (hnex : excl.contains kv.1 = false) :
    (cloneHeaderExcluding h excl).lookup kv.1 = some kv.2 := by
  induction h with
  | nil => exact absurd hmem (List.not_mem_nil kv)
  | cons a t ih =>
    have hat := hcanon a (List.mem_cons_self a t)
    rcases List.mem_cons.mp hmem with heq | hmemt
    · subst heq
      unfold cloneHeaderExcluding
      simp only [List.filterMap_cons, hnex, Bool.false_eq_true, if_false]
      rw [hat]
      simp [List.lookup]
    · have hkne : kv.1 ≠ a.1 := by
        intro heq
        have h1 : a.1 ∈ t.map Prod.fst := heq ▸ List.mem_map_of_mem Prod.fst hmemt
        have h2 := (List.nodup_cons.mp hnodup).1
        exact h2 h1
      have iht := ih (fun e he => hcanon e (List.mem_cons_of_mem a he))
        (List.nodup_cons.mp hnodup).2 hmemt
      unfold cloneHeaderExcluding at iht ⊢
      by_cases he : excl.contains a.1 = true
      · simp only [List.filterMap_cons, he, if_true]
        exact iht
      · simp only [List.filterMap_cons, he, Bool.false_eq_true, if_false]
        rw [hat]
        simp only [List.lookup, beq_eq_false_iff_ne.mpr hkne]
        exact iht

/-- A successful lookup is stable under appending entries. -/
theorem lookup_append_some (l1 l2 : Header) (k : String) (v : List String)
    (h : l1.lookup k = some v) : (l1 ++ l2).lookup k = some v := by
  induction l1 with
  | nil => exact absurd h (by simp)
  | cons a t ih =>
    rcases hb : (k == a.1) with _ | _
    · simp only [List.lookup, hb] at h
      simp only [List.cons_append, List.lookup, hb]
      exact ih h
    · simp only [List.lookup, hb] at h
      simp only [List.cons_append, List.lookup, hb]
      exact h

/-- A failed lookup defers to the appended entries. -/
theorem lookup_append_none (l1 l2 : Header) (k : String)
    (h : l1.lookup k = none) : (l1 ++ l2).lookup k = l2.lookup k := by
  induction l1 with
  | nil => rfl
  | cons a t ih =>
    rcases hb : (k == a.1) with _ | _
    · simp only [List.lookup, hb] at h
      simp only [List.cons_append, List.lookup, hb]
      exact ih h
    · simp only [List.lookup, hb] at h
      exact Option.noConfusion h

/-- Appending one value to the entries stored under a given key leaves
lookups of every other key unchanged. -/
theorem lookup_mapUpdate_other (h : Header) (ck v key : String) (hne : key ≠ ck) :
    (h.map (fun kv => if kv.1 = ck then (kv.1, kv.2 ++ [v]) else kv)).lookup key
      = h.lookup key := by
  induction h with
  | nil => rfl
  | cons a t ih =>
    by_cases hak : a.1 = ck
    · have hb : (key == a.1) = false := beq_eq_false_iff_ne.mpr (fun hk => hne (hak ▸ hk))
      simp only [List.map_cons]
      rw [if_pos hak]
      simp only [List.lookup, hb]
      exact ih
    · simp only [List.map_cons]
      rw [if_neg hak]
      rcases hb : (key == a.1) with _ | _
      · simp only [List.lookup, hb]
        exact ih
      · simp only [List.lookup, hb]

/-- Appending one value to the entries stored under a key turns its
lookup from the old values into the old values plus the new one. -/
theorem lookup_mapUpdate_same (h : Header) (ck v : String) (vs : List String)
    (hl : h.lookup ck = some vs) :
    (h.map (fun kv => if kv.1 = ck then (kv.1, kv.2 ++ [v]) else kv)).lookup ck
      = some (vs ++ [v]) := by
  induction h with
  | nil => exact absurd hl (by simp)
  | cons a t ih =>
    rcases hb : (ck == a.1) with _ | _
    · simp only [List.lookup, hb] at hl
      have hak : a.1 ≠ ck := fun hk => by
        rw [beq_eq_false_iff_ne] at hb
        exact hb hk.symm
      simp only [List.map_cons]
      rw [if_neg hak]
      simp only [List.lookup, hb]
      exact ih hl
    · simp only [List.lookup, hb] at hl
      have hak : a.1 = ck := (beq_iff_eq.mp hb).symm
      simp only [List.map_cons]
      rw [if_pos hak]
      simp only [List.lookup, hb]
      rw [Option.some.inj hl]

/-- `Header.Add` leaves lookups of every other key unchanged. -/
theorem headerAdd_lookup_other (h : Header) (k v key : String)
    (hne : key ≠ canonicalHeaderKey k) :
    (headerAdd h k v).lookup key = h.lookup key := by
  unfold headerAdd
  by_cases hs : (h.lookup (canonicalHeaderKey k)).isSome
  · rw [if_pos hs]
    exact lookup_mapUpdate_other h _ v key hne
  · rw [if_neg hs]
    rcases hl : h.lookup key with _ | v2
    · rw [lookup_append_none h _ key hl]
      simp only [List.lookup, beq_eq_false_iff_ne.mpr hne]
    · exact lookup_append_some h _ key v2 hl

/-- `Header.Add` appends the new value after the existing ones. -/
theorem headerAdd_lookup_same (h : Header) (k v : String) (vs : List String)
    (hl : h.lookup (canonicalHeaderKey k) = some vs) :
    (headerAdd h k v).lookup (canonicalHeaderKey k) = some (vs ++ [v]) := by
  unfold headerAdd
  rw [if_pos (by rw [hl]; rfl)]
  exact lookup_mapUpdate_same h _ v vs hl

/-- `Header.Add` creates the entry when the key was absent. -/
theorem headerAdd_lookup_new (h : Header) (k v : String)
    (hl : h.lookup (canonicalHeaderKey k) = none) :
    (headerAdd h k v).lookup (canonicalHeaderKey k) = some [v] := by
  unfold headerAdd
  rw [if_neg (by rw [hl]; simp)]
  rw [lookup_append_none h _ _ hl]
  simp [List.lookup]

/-- C9: with hop-header removal enabled, none of the nine hop-by-hop
headers appears on the outbound request, and every other inbound header
is copied under its canonical-case key with its values preserved (the
inbound keys are canonical and pairwise distinct, as the Go http server
stores them; an existing Authorization header may gain one appended
basic-auth value when the URL carries userinfo, hence the values appear
as a prefix in general and unchanged when there is no userinfo). -/
theorem hop_header_removal (h : Header) (urlUser : Option String)
    (hcanon : ∀ kv ∈ h, canonicalHeaderKey kv.1 = kv.1)
    (hnodup : (h.map Prod.fst).Nodup) :
    (∀ hh ∈ hopHeaders, (mapRequestHeader true h urlUser).lookup hh = none) ∧
    (∀ kv ∈ h, hopHeaders.contains kv.1 = false →
      ∃ t, (mapRequestHeader true h urlUser).lookup kv.1 = some (kv.2 ++ t)) ∧
    (urlUser = none → ∀ kv ∈ h, hopHeaders.contains kv.1 = false →
      (mapRequestHeader true h urlUser).lookup kv.1 = some kv.2) := by
  have f1 : ∀ hh ∈ hopHeaders, (cloneHeaderExcluding h hopHeaders).lookup hh = none :=
    fun hh hm => cloneExcluding_lookup_none h hopHeaders hh hcanon (List.elem_iff.mpr hm)
  have f2 : ∀ kv ∈ h, hopHeaders.contains kv.1 = false →
      (cloneHeaderExcluding h hopHeaders).lookup kv.1 = some kv.2 :=
    fun kv hm hex => cloneExcluding_lookup_some h hopHeaders kv hcanon hnodup hm hex
  have g1 : ∀ hh ∈ hopHeaders,
      ((if ((cloneHeaderExcluding h hopHeaders).lookup uaKey).isSome
        then cloneHeaderExcluding h hopHeaders
        else cloneHeaderExcluding h hopHeaders ++ [(uaKey, [""])])).lookup hh = none := by
    intro hh hm
    by_cases hua : ((cloneHeaderExcluding h hopHeaders).lookup uaKey).isSome
    · rw [if_pos hua]
      exact f1 hh hm
    · rw [if_neg hua, lookup_append_none _ _ _ (f1 hh hm)]
      have hne : (hh == uaKey) = false := beq_eq_false_iff_ne.mpr
        (fun he => absurd (he ▸ hm) (by decide))
      simp only [List.lookup, hne]
  have g2 : ∀ kv ∈ h, hopHeaders.contains kv.1 = false →
      ((if ((cloneHeaderExcluding h hopHeaders).lookup uaKey).isSome
        then cloneHeaderExcluding h hopHeaders
        else cloneHeaderExcluding h hopHeaders ++ [(uaKey, [""])])).lookup kv.1
        = some kv.2 := by
    intro kv hm hex
    by_cases hua : ((cloneHeaderExcluding h hopHeaders).lookup uaKey).isSome
    · rw [if_pos hua]
      exact f2 kv hm hex
    · rw [if_neg hua]
      exact lookup_append_some _ _ _ _ (f2 kv hm hex)
  rcases urlUser with _ | up
  · refine ⟨fun hh hm => g1 hh hm, ?_, fun _ kv hm hex => g2 kv hm hex⟩
    intro kv hm hex
    exact ⟨[], by rw [List.append_nil]; exact g2 kv hm hex⟩
  · have hca : canonicalHeaderKey authKey = authKey := by decide
    have hrw : mapRequestHeader true h (some up) =
        headerAdd ((if ((cloneHeaderExcluding h hopHeaders).lookup uaKey).isSome
          then cloneHeaderExcluding h hopHeaders
          else cloneHeaderExcluding h hopHeaders ++ [(uaKey, [""])]))
          authKey ("Basic " ++ base64EncodeString up) := rfl
    refine ⟨?_, ?_, fun habs => Option.noConfusion habs⟩
    · intro hh hm
      have hne : hh ≠ canonicalHeaderKey authKey := by
        rw [hca]
        intro he
        exact absurd (he ▸ hm) (by decide)
      rw [hrw, headerAdd_lookup_other _ _ _ _ hne]
      exact g1 hh hm
    · intro kv hm hex
      by_cases hau : kv.1 = authKey
      · refine ⟨["Basic " ++ base64EncodeString up], ?_⟩
        have hl2 : ((if ((cloneHeaderExcluding h hopHeaders).lookup uaKey).isSome
            then cloneHeaderExcluding h hopHeaders
            else cloneHeaderExcluding h hopHeaders ++ [(uaKey, [""])])).lookup
            (canonicalHeaderKey authKey) = some kv.2 := by
          rw [hca, ← hau]
          exact g2 kv hm hex
        rw [hrw, hau, ← hca]
        exact headerAdd_lookup_same _ _ _ _ hl2
      · have hne : kv.1 ≠ canonicalHeaderKey authKey := by rw [hca]; exact hau
        refine ⟨[], ?_⟩
        rw [List.append_nil, hrw, headerAdd_lookup_other _ _ _ _ hne]
        exact g2 kv hm hex

/-- Concrete instance of hop-header removal: an inbound header map
carrying Connection, Upgrade and Accept is mapped (with removal enabled
and no userinfo) to one where Connection and Upgrade are absent and
Accept keeps its value. -/
theorem hop_header_removal_witness :
    (mapRequestHeader true
      [("Connection", ["close"]), ("Upgrade", ["websocket"]), ("Accept", ["text/html"])]
      none).lookup ("Connection") = none ∧
    (mapRequestHeader true
      [("Connection", ["close"]), ("Upgrade", ["websocket"]), ("Accept", ["text/html"])]
      none).lookup ("Upgrade") = none ∧
    (mapRequestHeader true
      [("Connection", ["close"]), ("Upgrade", ["websocket"]), ("Accept", ["text/html"])]
      none).lookup ("Accept") = some ["text/html"] := by
  have h := hop_header_removal
    [("Connection", ["close"]), ("Upgrade", ["websocket"]), ("Accept", ["text/html"])]
    none (by decide) (by decide)
  exact ⟨h.1 ("Connection") (by decide), h.1 ("Upgrade") (by decide),
    h.2.2 rfl ("Accept", ["text/html"]) (by decide) (by decide)⟩

end Skipper
